import Mathlib

/-!
Verification of the MistralOCR chrome extension core logic.

Shallow embedding of `src/chrome-extension/background.js` and
`src/chrome-extension/content.js`:
- header scrubbing (`scrubHeaders`, `buildAuthHeaders`),
- the resilient fetch wrapper (`fetchWithRetry`),
- the plain-text stripping transform (`markdownToText`),
- the DOM-to-markdown converter (`nodeToMarkdown`),
- the OCR fallback (`fetchAndOCR`) and the orchestrator (`processTab`).

JavaScript strings are modelled as Lean `String` / `List Char`; absent or
null values as `Option`; the browser `fetch` as an oracle mapping the attempt
index to an outcome.  Regex operations of the source are implemented as
specialised matchers with JavaScript semantics (leftmost match, greedy with
backtracking where the pattern requires it).
-/

namespace MistralOCR

/-! ## Headers and credential scrubbing (background.js lines 48-68) -/

/-- A headers object.  The two fields the source inspects by name are carried
explicitly; every other key/value pair lives in `rest`.  `none` models an
absent key. -/
structure Headers where
  authorization : Option String
  xApiKey : Option String
  rest : List (String × String)
deriving DecidableEq, Repr

/-- JavaScript `\s` character class, restricted to the ASCII whitespace
characters (the source only ever matches a single ordinary space here). -/
def isSpaceRe (c : Char) : Bool :=
  c = ' ' || c = '\t' || c = '\n' || c = '\r' || c = '\x0b' || c = '\x0c'

/-- JavaScript `.` (dot) character class: any character except a line
terminator. -/
def isDotChar (c : Char) : Bool :=
  !(c = '\n' || c = '\r')

/-- Backtracking tail of the regex `Bearer\s+.+`: after the literal `Bearer`,
`\s+` greedily takes `ws` whitespace characters and backtracks down to one
until `.+` can match at least one non-line-terminator character; returns the
number of characters consumed after the literal, or `none`. -/
def bearerTailLen (rest : List Char) : Nat → Option Nat
  | 0 => none
  | k + 1 =>
    match rest.drop (k + 1) with
    | c :: _ =>
      if isDotChar c then
        some ((k + 1) + ((rest.drop (k + 1)).takeWhile isDotChar).length)
      else bearerTailLen rest k
    | [] => bearerTailLen rest k

/-- Length of a match of `/Bearer\s+.+/` anchored at the head of the list,
or `none` when the pattern does not match there. -/
def bearerMatchAt : List Char → Option Nat
  | 'B' :: 'e' :: 'a' :: 'r' :: 'e' :: 'r' :: rest =>
    (bearerTailLen rest ((rest.takeWhile isSpaceRe).length)).map (· + 6)
  | _ => none

/-- JavaScript `s.replace(/Bearer\s+.+/, "Bearer ***")`: replace the leftmost
match (the regex has no `g` flag, so at most one replacement happens). -/
def replaceBearerList : List Char → List Char
  | [] => []
  | c :: cs =>
    match bearerMatchAt (c :: cs) with
    | some n => ("Bearer ***").data ++ (c :: cs).drop n
    | none => c :: replaceBearerList cs

/-- String form of the bearer replacement. -/
def replaceBearer (s : String) : String :=
  String.mk (replaceBearerList s.data)

/-- background.js lines 48-57.  `if (clean.Authorization)` and
`if (clean["X-API-Key"])` are JavaScript truthiness tests: an absent key or
an empty string is falsy and left untouched. -/
def scrubHeaders (h : Headers) : Headers :=
  { authorization :=
      match h.authorization with
      | some a => some (if a = "" then a else replaceBearer a)
      | none => none,
    xApiKey :=
      match h.xApiKey with
      | some v => some (if v = "" then v else "***")
      | none => none,
    rest := h.rest }

/-- background.js lines 59-68. -/
def buildAuthHeaders (apiKey : String) (includeXApi : Bool) : Headers :=
  if apiKey = "" then ⟨none, none, []⟩
  else
    { authorization := some ("Bearer " ++ apiKey),
      xApiKey := if includeXApi then some apiKey else none,
      rest := [] }

/-! ## Resilient fetch wrapper (background.js lines 70-113) -/

/-- Outcome of one `fetch` call: a completed response (with status and body)
or a thrown network/timeout error. -/
inductive FetchOutcome where
  | resp (status : Nat) (body : String)
  | err
deriving DecidableEq, Repr

/-- A completed HTTP response, reduced to the fields the source reads. -/
structure Response where
  status : Nat
  body : String
deriving DecidableEq, Repr

/-- Errors the wrapper can raise: a rethrown network error (line 108) or the
final `new Error("fetchWithRetry exhausted retries")` (line 112). -/
inductive FetchError where
  | net
  | exhausted
deriving DecidableEq, Repr

/-- Request options, reduced to the fields the wrapper reads. -/
structure ReqOptions where
  headers : Headers
  timeout : Option Nat
deriving DecidableEq, Repr

/-- Observable trace of one `fetchWithRetry` run: the returned value or the
raised error, the headers sent on each issued request, the scrubbed headers
handed to the log sink for each attempt, and the backoff waits performed. -/
structure RetryResult where
  result : Except FetchError Response
  sent : List Headers
  logs : List Headers
  waits : List Nat

/-- JavaScript `response.ok`: status in the inclusive-exclusive range
[200, 300). -/
def respOk (status : Nat) : Bool :=
  200 ≤ status && status < 300

/-- The retry loop of background.js lines 71-111.  `fetchFn` maps the attempt
index to that attempt's outcome; `fuel` counts the remaining loop iterations
(`retries + 1 - attempt`), so running out of fuel is line 112. -/
def fetchLoop (fetchFn : Nat → FetchOutcome) (opts : ReqOptions)
    (retries backoff : Nat) : Nat → Nat → RetryResult
  | _, 0 => ⟨.error .exhausted, [], [], []⟩
  | attempt, fuel + 1 =>
    match fetchFn attempt with
    | .resp status body =>
      if respOk status = false ∧ attempt < retries ∧ 500 ≤ status then
        let r := fetchLoop fetchFn opts retries backoff (attempt + 1) fuel
        ⟨r.result, opts.headers :: r.sent,
          scrubHeaders opts.headers :: r.logs, backoff * 2 ^ attempt :: r.waits⟩
      else
        ⟨.ok ⟨status, body⟩, [opts.headers], [scrubHeaders opts.headers], []⟩
    | .err =>
      if attempt = retries then
        ⟨.error .net, [opts.headers], [scrubHeaders opts.headers], []⟩
      else
        let r := fetchLoop fetchFn opts retries backoff (attempt + 1) fuel
        ⟨r.result, opts.headers :: r.sent,
          scrubHeaders opts.headers :: r.logs, backoff * 2 ^ attempt :: r.waits⟩

/-- background.js line 70: `fetchWithRetry(url, options, retries = 2,
backoff = 500)`.  The URL does not influence control flow and is elided. -/
def fetchWithRetry (fetchFn : Nat → FetchOutcome) (opts : ReqOptions)
    (retries backoff : Nat) : RetryResult :=
  fetchLoop fetchFn opts retries backoff 0 (retries + 1)

/-! ## Plain-text stripping transform (background.js lines 250-255) -/

/-- The character class of the third replace, `/[`*_>#-]/g`: backtick,
asterisk, underscore, greater-than, hash and a trailing literal hyphen. -/
def isMarker (c : Char) : Bool :=
  c = Char.ofNat 96 || c = '*' || c = '_' || c = '>' || c = '#' || c = '-'

/-- Third stage of `markdownToText`: global replacement of every marker
character with the empty string. -/
def stripMarkers (cs : List Char) : List Char :=
  cs.filter (fun c => !isMarker c)

/-- Length of a match of `/\[[^\]]*\]\([^)]*\)/` anchored at the head of the
list.  The character classes exclude their closing delimiter, so the greedy
stars are deterministic: scan to the first `]`, require `(`, scan to the
first `)`. -/
def linkLen (cs : List Char) : Option Nat :=
  match cs with
  | '[' :: rest =>
    let lbl := rest.takeWhile (fun c => c ≠ ']')
    match rest.drop lbl.length with
    | ']' :: '(' :: r3 =>
      let tgt := r3.takeWhile (fun c => c ≠ ')')
      match r3.drop tgt.length with
      | ')' :: _ => some (lbl.length + tgt.length + 4)
      | _ => none
    | _ => none
  | _ => none

/-- Length of a match of `/!\[[^\]]*\]\([^)]*\)/` anchored at the head: a
bang followed by a link construct. -/
def imageLen (cs : List Char) : Option Nat :=
  match cs with
  | c :: rest => if c = '!' then (linkLen rest).map (· + 1) else none
  | [] => none

/-- Global regex replacement with the empty string: scan left to right; at a
match of length `n` emit nothing and continue after the match, otherwise
emit the character and advance by one.  `fuel` starts at the list length and
every step consumes one unit while the list loses at least one element, so
the fuel-exhausted fallback is never reached for the matchers used here
(their matches have length at least four). -/
def stripLoop (ml : List Char → Option Nat) : Nat → List Char → List Char
  | _, [] => []
  | 0, c :: cs => c :: cs
  | fuel + 1, c :: cs =>
    match ml (c :: cs) with
    | some n => stripLoop ml fuel ((c :: cs).drop n)
    | none => c :: stripLoop ml fuel cs

/-- One global replace pass over the whole list. -/
def stripAll (ml : List Char → Option Nat) (cs : List Char) : List Char :=
  stripLoop ml cs.length cs

/-- background.js lines 250-255: strip image constructs, then link
constructs, then every marker character. -/
def markdownToText (md : String) : String :=
  String.mk (stripMarkers (stripAll linkLen (stripAll imageLen md.data)))

/-- Does the matcher succeed at any suffix of the list?  This is exactly the
set of positions `stripLoop` probes, so `hasMatchB ml cs = false` means the
corresponding replace pass leaves `cs` unchanged. -/
def hasMatchB (ml : List Char → Option Nat) : List Char → Bool
  | [] => (ml []).isSome
  | c :: cs => (ml (c :: cs)).isSome || hasMatchB ml cs

lemma stripLoop_of_no_match (ml : List Char → Option Nat) :
    ∀ (cs : List Char), hasMatchB ml cs = false →
    ∀ fuel, stripLoop ml fuel cs = cs := by
  intro cs
  induction cs with
  | nil => intro _ fuel; cases fuel <;> rfl
  | cons c cs ih =>
    intro h fuel
    rw [hasMatchB] at h
    rcases Bool.or_eq_false_iff.mp h with ⟨h1, h2⟩
    cases fuel with
    | zero => rfl
    | succ f =>
      rw [stripLoop]
      cases hml : ml (c :: cs) with
      | some n => rw [hml] at h1; simp at h1
      | none => simp [ih h2 f]

lemma stripAll_of_no_match (ml : List Char → Option Nat) (cs : List Char)
    (h : hasMatchB ml cs = false) : stripAll ml cs = cs :=
  stripLoop_of_no_match ml cs h cs.length

lemma stripMarkers_idem (cs : List Char) :
    stripMarkers (stripMarkers cs) = stripMarkers cs := by
  simp [stripMarkers, List.filter_filter]

/-! ## DOM-to-markdown converter (content.js lines 9-47) -/

/-- A DOM node: a text node carrying its `textContent`, an element with a
tag name, attribute list and children, or any other node kind (comment,
processing instruction, ...) for which the source returns the empty
string. -/
inductive DNode where
  | text (s : String)
  | elem (tag : String) (attrs : List (String × String)) (children : List DNode)
  | otherNode
deriving Repr

/-- `node.getAttribute(name)`: the attribute's value, or `none` (null) when
absent. -/
def getAttribute (attrs : List (String × String)) (name : String) : Option String :=
  attrs.lookup name

/-- `tagName.toLowerCase()`, character by character. -/
def jsToLower (s : String) : String :=
  String.mk (s.data.map Char.toLower)

mutual

/-- content.js lines 9-47: children are converted first, then the tag rule
is applied to the concatenated child content. -/
def nodeToMarkdown : DNode → String
  | .text s => s
  | .otherNode => ""
  | .elem tag attrs children =>
    let t := jsToLower tag
    let content := childrenToMarkdown children
    if t = "h1" then "# " ++ content ++ "\n\n"
    else if t = "h2" then "## " ++ content ++ "\n\n"
    else if t = "h3" then "### " ++ content ++ "\n\n"
    else if t = "strong" ∨ t = "b" then "**" ++ content ++ "**"
    else if t = "em" ∨ t = "i" then "*" ++ content ++ "*"
    else if t = "p" then content ++ "\n\n"
    else if t = "br" then "\n"
    else if t = "li" then "- " ++ content ++ "\n"
    else if t = "ul" ∨ t = "ol" then "\n" ++ content ++ "\n"
    else if t = "a" then
      "[" ++ content ++ "](" ++ (getAttribute attrs "href").getD "" ++ ")"
    else if t = "img" then
      "![" ++ (getAttribute attrs "alt").getD "" ++ "](" ++
        (getAttribute attrs "src").getD "" ++ ")"
    else content

/-- `Array.from(node.childNodes).map(nodeToMarkdown).join("")`. -/
def childrenToMarkdown : List DNode → String
  | [] => ""
  | n :: ns => nodeToMarkdown n ++ childrenToMarkdown ns

end

/-! ## OCR fallback (background.js lines 172-232) -/

/-- JavaScript `a || b` on an optional string: the first operand when it is
present and non-empty (truthy), otherwise the default. -/
def jsOrS (o : Option String) (d : String) : String :=
  match o with
  | some s => if s = "" then d else s
  | none => d

/-- One element of the OCR response's `pages` array. -/
structure OCRPage where
  markdown : Option String
  text : Option String
deriving Repr

/-- The parsed OCR response body, reduced to the fields the source reads.
`pages = none` models `data.pages` absent or not an array. -/
structure OCRData where
  pages : Option (List OCRPage)
  text : Option String
  markdown : Option String
deriving Repr

/-- background.js lines 217-225: per-page `p.markdown || p.text || ""`,
joined with blank lines; when that is falsy, `data.text || data.markdown
|| ""`. -/
def extractOCRResult (data : OCRData) : String :=
  let result :=
    match data.pages with
    | some ps => String.intercalate "\n\n" (ps.map (fun p => jsOrS p.markdown (jsOrS p.text "")))
    | none => ""
  if result = "" then jsOrS data.text (jsOrS data.markdown "") else result

/-- The request options `fetchAndOCR` passes to `fetchWithRetry` (lines
195-204): auth headers with the X-API-Key variant plus a JSON content type,
and a 15000 ms timeout. -/
def ocrOptions (apiKey : String) : ReqOptions :=
  { headers :=
      { buildAuthHeaders apiKey true with
        rest := (buildAuthHeaders apiKey true).rest ++ [("Content-Type", "application/json")] },
    timeout := some 15000 }

/-- background.js lines 172-232.  `resourceOk = false` models an exception
anywhere in the initial resource fetch / blob / base64 encoding (caught by
the outer try at line 228); `ocrFetch` is the oracle for the OCR endpoint
attempts; `parse` models `JSON.parse`, `none` being a thrown syntax error
(caught at line 213).  A raised error from `fetchWithRetry` is caught by the
outer try.  The function always returns a string; failures yield `""`. -/
def fetchAndOCR (resourceOk : Bool) (apiKey : String)
    (ocrFetch : Nat → FetchOutcome) (parse : String → Option OCRData) : String :=
  if resourceOk = false then ""
  else
    match (fetchWithRetry ocrFetch (ocrOptions apiKey) 2 500).result with
    | .error _ => ""
    | .ok resp =>
      if respOk resp.status = false then ""
      else
        match parse resp.body with
        | none => ""
        | some data => extractOCRResult data

/-! ## Tab-processing orchestrator (background.js lines 257-298) -/

/-- background.js lines 257-259: collapse every maximal run of characters
outside [a-zA-Z0-9-] into a single underscore (`/[^a-z0-9\-]+/gi`). -/
def goodFilenameChar (c : Char) : Bool :=
  ('a' ≤ c && c ≤ 'z') || ('A' ≤ c && c ≤ 'Z') || ('0' ≤ c && c ≤ '9') || c = '-'

lemma dropWhile_length_le (p : Char → Bool) (l : List Char) :
    (l.dropWhile p).length ≤ l.length := by
  induction l with
  | nil => simp
  | cons c cs ih =>
    rw [List.dropWhile_cons]
    by_cases h : p c
    · simp only [h, if_true, List.length_cons]; omega
    · simp [h]

def sanitizeAux : List Char → List Char
  | [] => []
  | c :: cs =>
    if goodFilenameChar c then c :: sanitizeAux cs
    else '_' :: sanitizeAux (cs.dropWhile (fun d => !goodFilenameChar d))
termination_by cs => cs.length
decreasing_by
  · simp only [List.length_cons]; omega
  · have := dropWhile_length_le (fun d => !goodFilenameChar d) cs
    simp only [List.length_cons]; omega

def sanitizeFilename (name : String) : String :=
  String.mk (sanitizeAux name.data)

/-- A content-script response object `{ markdown }`; the field may be
absent. -/
structure SelResp where
  markdown : Option String
deriving Repr

/-- Collaborator outcomes for one `processTab` run: the tab title, the two
message responses (`none` is a null response after failed injection), the
string the OCR fallback would return, and the boolean the download
collaborator would resolve with. -/
structure TabEnv where
  title : Option String
  selectionResp : Option SelResp
  pageResp : Option SelResp
  ocrResult : String
  downloadOk : Bool

/-- JavaScript truthiness of a possibly-absent string. -/
def truthy : Option String → Bool
  | none => false
  | some s => s ≠ ""

/-- JavaScript `s.trim()`: remove leading and trailing whitespace. -/
def jsTrim (s : String) : String :=
  String.mk (((s.data.dropWhile isSpaceRe).reverse.dropWhile isSpaceRe).reverse)

/-- The test `!x || !x.trim()` on a possibly-absent string: absent, empty or
whitespace-only. -/
def blankOpt : Option String → Bool
  | none => true
  | some s => jsTrim s = ""

/-- The extension map `{markdown: ".md", text: ".txt", json: ".json"}[format]
|| ".md"` (line 269). -/
def extFor (format : String) : String :=
  if format = "markdown" then ".md"
  else if format = "text" then ".txt"
  else if format = "json" then ".json"
  else ".md"

/-- Lines 272-285: the extraction phase.  In selection mode the selection
response is used unless `!response || !response.markdown ||
!response.markdown.trim()`, in which case the whole-page response replaces
it; `content = response && response.markdown`; a blank content falls back to
the OCR result. -/
def extractedContent (env : TabEnv) (preferSelection : Bool) : Option String :=
  let response :=
    if preferSelection then
      if blankOpt (env.selectionResp.bind (·.markdown)) then env.pageResp
      else env.selectionResp
    else env.pageResp
  let content := response.bind (·.markdown)
  if blankOpt content then some env.ocrResult else content

/-- Lines 286-288: the optional plain-text conversion, applied when the
format is "text" and the content is truthy. -/
def finalContent (env : TabEnv) (preferSelection : Bool) (format : String) :
    Option String :=
  let content := extractedContent env preferSelection
  if format = "text" ∧ truthy content = true then content.map markdownToText
  else content

/-- background.js lines 266-298.  Returns the boolean result together with
the list of `downloadContent` invocations (content, filename, format); the
source makes at most one. -/
def processTab (env : TabEnv) (preferSelection : Bool) (format : String) :
    Bool × List (String × String × String) :=
  let filename := sanitizeFilename (jsOrS env.title "page") ++ extFor format
  match finalContent env preferSelection format with
  | some content =>
    if content ≠ "" ∧ jsTrim content ≠ "" then
      (env.downloadOk, [(content, filename, format)])
    else (false, [])
  | none => (false, [])

/-! ## Shared fixtures and helper lemmas -/

/-- A concrete options value for closed instances. -/
def testOpts : ReqOptions := ⟨⟨none, none, []⟩, none⟩

lemma fetchLoop_headers (fetchFn : Nat → FetchOutcome) (opts : ReqOptions)
    (retries backoff : Nat) :
    ∀ fuel attempt,
      (∀ h ∈ (fetchLoop fetchFn opts retries backoff attempt fuel).sent,
        h = opts.headers) ∧
      (∀ l ∈ (fetchLoop fetchFn opts retries backoff attempt fuel).logs,
        l = scrubHeaders opts.headers) := by
  intro fuel
  induction fuel with
  | zero =>
    intro attempt
    exact ⟨fun h hh => by simp [fetchLoop] at hh,
      fun l hl => by simp [fetchLoop] at hl⟩
  | succ n ih =>
    intro attempt
    have hrec := ih (attempt + 1)
    cases hf : fetchFn attempt with
    | resp status body =>
      by_cases hc : respOk status = false ∧ attempt < retries ∧ 500 ≤ status
      · refine ⟨fun h hh => ?_, fun l hl => ?_⟩
        · simp only [fetchLoop, hf, if_pos hc, List.mem_cons] at hh
          rcases hh with rfl | hh
          · rfl
          · exact hrec.1 h hh
        · simp only [fetchLoop, hf, if_pos hc, List.mem_cons] at hl
          rcases hl with rfl | hl
          · rfl
          · exact hrec.2 l hl
      · refine ⟨fun h hh => ?_, fun l hl => ?_⟩
        · simp only [fetchLoop, hf, if_neg hc, List.mem_singleton] at hh
          exact hh
        · simp only [fetchLoop, hf, if_neg hc, List.mem_singleton] at hl
          exact hl
    | err =>
      by_cases he : attempt = retries
      · refine ⟨fun h hh => ?_, fun l hl => ?_⟩
        · simp only [fetchLoop, hf, if_pos he, List.mem_singleton] at hh
          exact hh
        · simp only [fetchLoop, hf, if_pos he, List.mem_singleton] at hl
          exact hl
      · refine ⟨fun h hh => ?_, fun l hl => ?_⟩
        · simp only [fetchLoop, hf, if_neg he, List.mem_cons] at hh
          rcases hh with rfl | hh
          · rfl
          · exact hrec.1 h hh
        · simp only [fetchLoop, hf, if_neg he, List.mem_cons] at hl
          rcases hl with rfl | hl
          · rfl
          · exact hrec.2 l hl

/-! ## Claim theorems -/

/-- C1 (amended): with `retries = 2`, `backoff = 500` and every attempt
completing with HTTP 500, the request is issued exactly three times with
waits of 500 ms and 1000 ms between attempts; the third 500 response is then
RETURNED to the caller as a normal response (the exhaustion error is raised
only when the final attempt throws a network error, not when it completes
with a 5xx status). -/
theorem c1_retry_bound_amended (opts : ReqOptions) (bf : Nat → String) :
    (fetchWithRetry (fun i => .resp 500 (bf i)) opts 2 500).sent =
      [opts.headers, opts.headers, opts.headers] ∧
    (fetchWithRetry (fun i => .resp 500 (bf i)) opts 2 500).waits = [500, 1000] ∧
    (fetchWithRetry (fun i => .resp 500 (bf i)) opts 2 500).result =
      .ok ⟨500, bf 2⟩ :=
  ⟨rfl, rfl, rfl⟩

/-- C1 counterexample: a target that always completes with HTTP 500 is
called exactly three times, but afterwards the last 500 response is returned
as a normal response, not raised as an exhaustion failure — refuting the
claim that the failure is "raised/propagated to the caller rather than
returned as a normal response". -/
theorem c1_counterexample :
    (fetchWithRetry (fun _ => .resp 500 "") testOpts 2 500).sent.length = 3 ∧
    (fetchWithRetry (fun _ => .resp 500 "") testOpts 2 500).result =
      .ok ⟨500, ""⟩ :=
  ⟨rfl, rfl⟩

/-- C5: the depth-first converter maps the tree of
`<body><h1>Title</h1><p>Hello <b>world</b></p></body>` to exactly
`"# Title\n\nHello **world**\n\n"`. -/
theorem c5_scenario_a :
    nodeToMarkdown (.elem "BODY" [] [.elem "H1" [] [.text "Title"],
      .elem "P" [] [.text "Hello ", .elem "B" [] [.text "world"]]]) =
    "# Title\n\nHello **world**\n\n" := rfl

/-- C6: whenever the first attempt completes with a status below 500 (for
example 404), that response is returned immediately: exactly one request is
issued and no wait is performed, regardless of the configured retry count. -/
theorem c6_no_retry_below_500 (fetchFn : Nat → FetchOutcome)
    (opts : ReqOptions) (retries backoff s : Nat) (b : String)
    (h0 : fetchFn 0 = .resp s b) (hs : s < 500) :
    fetchWithRetry fetchFn opts retries backoff =
      ⟨.ok ⟨s, b⟩, [opts.headers], [scrubHeaders opts.headers], []⟩ := by
  unfold fetchWithRetry
  simp only [fetchLoop, h0]
  rw [if_neg]
  rintro ⟨-, -, h500⟩
  omega

/-- C6 witness: a target answering 404 on the first attempt, with the
default configuration `retries = 2`, `backoff = 500`. -/
theorem c6_witness :
    (fun _ : Nat => FetchOutcome.resp 404 "nf") 0 = FetchOutcome.resp 404 "nf" ∧
    404 < 500 ∧
    fetchWithRetry (fun _ => .resp 404 "nf") testOpts 2 500 =
      ⟨.ok ⟨404, "nf"⟩, [testOpts.headers], [scrubHeaders testOpts.headers], []⟩ :=
  ⟨rfl, by omega,
    c6_no_retry_below_500 (fun _ => .resp 404 "nf") testOpts 2 500 404 "nf" rfl
      (by omega)⟩

/-- C9: a link element with no `href` yields `[content]()`; an image element
with a missing `alt` or `src` gets the empty string in that position — the
output never contains a `null`/`undefined` placeholder. -/
theorem c9_attribute_defaulting (attrs : List (String × String))
    (children : List DNode) :
    (getAttribute attrs "href" = none →
      nodeToMarkdown (.elem "a" attrs children) =
        "[" ++ childrenToMarkdown children ++ "]()") ∧
    (getAttribute attrs "alt" = none → getAttribute attrs "src" = none →
      nodeToMarkdown (.elem "img" attrs children) = "![]()") ∧
    (getAttribute attrs "alt" = none →
      nodeToMarkdown (.elem "img" attrs children) =
        "![](" ++ (getAttribute attrs "src").getD "" ++ ")") ∧
    (getAttribute attrs "src" = none →
      nodeToMarkdown (.elem "img" attrs children) =
        "![" ++ (getAttribute attrs "alt").getD "" ++ "]()") := by
  refine ⟨fun h1 => ?_, fun h1 h2 => ?_, fun h1 => ?_, fun h2 => ?_⟩
  · simp [nodeToMarkdown, h1, jsToLower, String.append_assoc]
  · simp [nodeToMarkdown, h1, h2, jsToLower, String.append_assoc]
  · simp [nodeToMarkdown, h1, jsToLower, String.append_assoc]
  · simp [nodeToMarkdown, h2, jsToLower, String.append_assoc]

/-- C9 witness: an attribute-less link and image. -/
theorem c9_witness :
    getAttribute [] "href" = none ∧
    nodeToMarkdown (.elem "a" [] [.text "label"]) = "[label]()" :=
  ⟨rfl, by
    have := (c9_attribute_defaulting [] [.text "label"]).1 rfl
    simpa [childrenToMarkdown, nodeToMarkdown] using this⟩

/-- C10: `scrubHeaders` builds a fresh scrubbed copy — the other header
entries of the copy are those of the input — and redaction affects only the
log: every request `fetchWithRetry` issues carries the original headers with
their unmasked `Authorization` and `X-API-Key` values, while every log entry
carries the scrubbed copy. -/
theorem c10_scrub_frame (fetchFn : Nat → FetchOutcome) (opts : ReqOptions)
    (retries backoff : Nat) :
    (scrubHeaders opts.headers).rest = opts.headers.rest ∧
    (∀ h ∈ (fetchWithRetry fetchFn opts retries backoff).sent,
      h = opts.headers) ∧
    (∀ l ∈ (fetchWithRetry fetchFn opts retries backoff).logs,
      l = scrubHeaders opts.headers) :=
  ⟨rfl, (fetchLoop_headers fetchFn opts retries backoff (retries + 1) 0).1,
    (fetchLoop_headers fetchFn opts retries backoff (retries + 1) 0).2⟩

/-- C10 witness: on a run returning 200 immediately the single issued
request carries exactly the original headers. -/
theorem c10_witness :
    testOpts.headers ∈
      (fetchWithRetry (fun _ => .resp 200 "ok") testOpts 2 500).sent ∧
    testOpts.headers = testOpts.headers :=
  ⟨by decide,
    (c10_scrub_frame (fun _ => .resp 200 "ok") testOpts 2 500).2.1
      testOpts.headers (by decide)⟩

lemma linkLen_exact (lbl tgt : List Char) (h1 : ∀ c ∈ lbl, c ≠ ']')
    (h2 : ∀ c ∈ tgt, c ≠ ')') :
    linkLen ('[' :: (lbl ++ ']' :: '(' :: (tgt ++ [')']))) =
      some (lbl.length + tgt.length + 4) := by
  have e1 : (lbl ++ ']' :: '(' :: (tgt ++ [')'])).takeWhile
      (fun c => c ≠ ']') = lbl := by
    rw [List.takeWhile_append_of_pos (by simpa using h1)]
    simp [List.takeWhile]
  have e2 : (tgt ++ [')']).takeWhile (fun c => c ≠ ')') = tgt := by
    rw [List.takeWhile_append_of_pos (by simpa using h2)]
    simp [List.takeWhile]
  simp only [linkLen, e1, List.drop_left, e2]

lemma stripAll_whole (ml : List Char → Option Nat) (cs : List Char)
    (h : ml cs = some cs.length) (hne : cs ≠ []) : stripAll ml cs = [] := by
  cases cs with
  | nil => exact absurd rfl hne
  | cons c cs' =>
    show stripLoop ml (c :: cs').length (c :: cs') = []
    rw [List.length_cons]
    rw [List.length_cons] at h
    simp only [stripLoop, h, ← List.length_cons c cs', List.drop_length]

lemma no_image_match (cs : List Char) (h : ∀ c ∈ cs, c ≠ '!') :
    hasMatchB imageLen cs = false := by
  induction cs with
  | nil => rfl
  | cons c cs' ih =>
    rw [hasMatchB]
    have hc : imageLen (c :: cs') = none := by
      rw [imageLen]
      rw [if_neg (by simpa using h c (by simp))]
    rw [hc]
    simp only [Option.isSome_none, Bool.false_or]
    exact ih fun x hx => h x (by simp [hx])

/-- C2 (amended): when the `Authorization` header is
`"Bearer abcdef123"`, its scrubbed form is exactly `"Bearer ***"` — it
contains `"Bearer ***"` and never the substring `"abcdef123"` — and every
non-empty `X-API-Key` value is replaced by `"***"` (an empty `X-API-Key`
value is falsy in the source's truthiness test and is left as the empty
string, which carries no credential); on every attempt the value handed to
the log sink is this scrubbed copy. -/
theorem c2_redaction_amended (h : Headers) (t : Option Nat)
    (fetchFn : Nat → FetchOutcome) (retries backoff : Nat)
    (hAuth : h.authorization = some "Bearer abcdef123") :
    (scrubHeaders h).authorization = some "Bearer ***" ∧
    (∀ a, (scrubHeaders h).authorization = some a →
      "Bearer ***".data <:+: a.data ∧ ¬ ("abcdef123".data <:+: a.data)) ∧
    (∀ v, h.xApiKey = some v → v ≠ "" →
      (scrubHeaders h).xApiKey = some "***") ∧
    (∀ l ∈ (fetchWithRetry fetchFn ⟨h, t⟩ retries backoff).logs,
      l = scrubHeaders h) := by
  have e1 : (scrubHeaders h).authorization = some "Bearer ***" := by
    simp only [scrubHeaders, hAuth]
    decide
  refine ⟨e1, fun a ha => ?_, fun v hv hne => ?_, ?_⟩
  · rw [e1] at ha
    cases ha
    exact ⟨by decide, by decide⟩
  · simp [scrubHeaders, hv, hne]
  · exact (fetchLoop_headers fetchFn ⟨h, t⟩ retries backoff (retries + 1) 0).2

/-- C2 counterexample: with `Authorization: "Bearer abcdef123"` and the
empty string as `X-API-Key` value, the scrubbed headers reaching the log
keep `X-API-Key` as `""` — it is not replaced by `"***"`, refuting the
claim's universal "X-API-Key value fully replaced by ***". -/
theorem c2_counterexample :
    (fetchWithRetry (fun _ => .resp 200 "")
      ⟨⟨some "Bearer abcdef123", some "", []⟩, none⟩ 2 500).logs =
      [scrubHeaders ⟨some "Bearer abcdef123", some "", []⟩] ∧
    (scrubHeaders ⟨some "Bearer abcdef123", some "", []⟩).xApiKey ≠
      some "***" :=
  ⟨rfl, by decide⟩

/-- C2 witness: a headers object with the bearer token and a non-empty
API key. -/
theorem c2_witness :
    (⟨some "Bearer abcdef123", some "sekrit", []⟩ : Headers).authorization =
      some "Bearer abcdef123" ∧
    (scrubHeaders ⟨some "Bearer abcdef123", some "sekrit", []⟩).authorization =
      some "Bearer ***" ∧
    (scrubHeaders ⟨some "Bearer abcdef123", some "sekrit", []⟩).xApiKey =
      some "***" :=
  ⟨rfl,
    (c2_redaction_amended ⟨some "Bearer abcdef123", some "sekrit", []⟩ none
      (fun _ => .resp 200 "") 2 500 rfl).1,
    (c2_redaction_amended ⟨some "Bearer abcdef123", some "sekrit", []⟩ none
      (fun _ => .resp 200 "") 2 500 rfl).2.2.1 "sekrit" rfl (by decide)⟩

/-- C3 (amended): `markdownToText` is idempotent exactly on the inputs whose
single application leaves no image or link construct behind: whenever
`markdownToText s` contains no match of the image pattern and none of the
link pattern, a second application is the identity.  In general idempotence
fails, because deleting marker characters can create a new link construct
(see the counterexample). -/
theorem c3_idempotence_amended (s : String)
    (h1 : hasMatchB imageLen (markdownToText s).data = false)
    (h2 : hasMatchB linkLen (markdownToText s).data = false) :
    markdownToText (markdownToText s) = markdownToText s := by
  show String.mk (stripMarkers (stripAll linkLen
    (stripAll imageLen (markdownToText s).data))) = markdownToText s
  rw [stripAll_of_no_match _ _ h1, stripAll_of_no_match _ _ h2]
  show String.mk (stripMarkers (stripMarkers (stripAll linkLen
    (stripAll imageLen s.data)))) = markdownToText s
  rw [stripMarkers_idem]
  rfl

/-- C3 counterexample: `"[a]#(b)"` maps to `"[a](b)"` (only the marker `#`
is deleted), and a second application deletes the freshly created link
construct, yielding `""` — so `markdownToText` is not idempotent. -/
theorem c3_counterexample :
    markdownToText (markdownToText "[a]#(b)") ≠ markdownToText "[a]#(b)" := by
  decide

/-- C3 witness: an input whose stripped form has no constructs left. -/
theorem c3_witness :
    hasMatchB imageLen (markdownToText "# Title").data = false ∧
    hasMatchB linkLen (markdownToText "# Title").data = false ∧
    markdownToText (markdownToText "# Title") = markdownToText "# Title" :=
  ⟨by decide, by decide, c3_idempotence_amended "# Title" (by decide) (by decide)⟩

/-- C4 (amended): the stripping transform removes each link or image
construct ENTIRELY — the label is discarded together with the target, the
whole construct being replaced by the empty string — and the stripped form
of `"# Title\n\n**bold**"` contains no `#` or `*` and still contains the
words `Title` and `bold`.  (The bracket-free label/target hypotheses state
that the construct is a single well-formed one.) -/
theorem c4_strip_constructs_amended (lbl tgt : List Char)
    (h1 : ∀ c ∈ lbl, c ≠ ']') (h2 : ∀ c ∈ tgt, c ≠ ')')
    (h3 : ∀ c ∈ lbl, c ≠ '!') (h4 : ∀ c ∈ tgt, c ≠ '!') :
    markdownToText (String.mk ('[' :: (lbl ++ ']' :: '(' :: (tgt ++ [')'])))) =
      "" ∧
    markdownToText (String.mk ('!' :: '[' ::
      (lbl ++ ']' :: '(' :: (tgt ++ [')'])))) = "" ∧
    markdownToText "# Title\n\n**bold**" = " Title\n\nbold" ∧
    (∀ c ∈ (markdownToText "# Title\n\n**bold**").data, c ≠ '#' ∧ c ≠ '*') ∧
    "Title".data <:+: (markdownToText "# Title\n\n**bold**").data ∧
    "bold".data <:+: (markdownToText "# Title\n\n**bold**").data := by
  have hlink : linkLen ('[' :: (lbl ++ ']' :: '(' :: (tgt ++ [')']))) =
      some ('[' :: (lbl ++ ']' :: '(' :: (tgt ++ [')']))).length := by
    rw [linkLen_exact lbl tgt h1 h2]
    congr 1
    simp only [List.length_cons, List.length_append, List.length_singleton,
      List.length_nil]
    try omega
  have hbang : ∀ c ∈ '[' :: (lbl ++ ']' :: '(' :: (tgt ++ [')'])), c ≠ '!' := by
    intro c hc
    rcases List.mem_cons.mp hc with rfl | hc
    · decide
    rcases List.mem_append.mp hc with hc | hc
    · exact h3 c hc
    rcases List.mem_cons.mp hc with rfl | hc
    · decide
    rcases List.mem_cons.mp hc with rfl | hc
    · decide
    rcases List.mem_append.mp hc with hc | hc
    · exact h4 c hc
    · rcases List.mem_singleton.mp hc with rfl
      decide
  refine ⟨?_, ?_, by decide, by decide, by decide, by decide⟩
  · show String.mk (stripMarkers (stripAll linkLen (stripAll imageLen
      ('[' :: (lbl ++ ']' :: '(' :: (tgt ++ [')'])))))) = ""
    rw [stripAll_of_no_match _ _ (no_image_match _ hbang),
      stripAll_whole _ _ hlink (by simp)]
    rfl
  · show String.mk (stripMarkers (stripAll linkLen (stripAll imageLen
      ('!' :: '[' :: (lbl ++ ']' :: '(' :: (tgt ++ [')'])))))) = ""
    have himg : imageLen ('!' :: '[' :: (lbl ++ ']' :: '(' :: (tgt ++ [')']))) =
        some ('!' :: '[' :: (lbl ++ ']' :: '(' :: (tgt ++ [')']))).length := by
      rw [imageLen, if_pos rfl, hlink]
      simp
    rw [stripAll_whole _ _ himg (by simp)]
    rfl

/-- C4 counterexample: the transform does NOT keep the link label: the
stripped form of `"[hello](url)"` is the empty string, which does not
contain the label `"hello"`. -/
theorem c4_counterexample :
    markdownToText "[hello](url)" = "" ∧
    ¬ ("hello".data <:+: (markdownToText "[hello](url)").data) := by
  exact ⟨by decide, by decide⟩

/-- C4 witness: the concrete construct `[hello](url)`. -/
theorem c4_witness :
    (∀ c ∈ ("hello".data : List Char), c ≠ ']') ∧
    markdownToText (String.mk ('[' :: ("hello".data ++ ']' :: '(' ::
      ("url".data ++ [')'])))) = "" :=
  ⟨by decide,
    (c4_strip_constructs_amended "hello".data "url".data (by decide)
      (by decide) (by decide) (by decide)).1⟩

/-- C7: whenever the final content (after extraction, OCR fallback and the
optional plain-text conversion) is absent, empty or whitespace-only, the
download collaborator is never invoked and `processTab` reports failure;
and any content that IS handed to the download collaborator is non-empty
and not whitespace-only. -/
theorem c7_no_empty_persistence (env : TabEnv) (psel : Bool)
    (format : String) :
    (blankOpt (finalContent env psel format) = true →
      processTab env psel format = (false, [])) ∧
    (∀ c fn f, (c, fn, f) ∈ (processTab env psel format).2 →
      c ≠ "" ∧ jsTrim c ≠ "") := by
  have hpt : processTab env psel format =
      match finalContent env psel format with
      | some content =>
        if content ≠ "" ∧ jsTrim content ≠ "" then
          (env.downloadOk,
            [(content, sanitizeFilename (jsOrS env.title "page") ++
              extFor format, format)])
        else (false, [])
      | none => (false, []) := rfl
  cases hc : finalContent env psel format with
  | none =>
    refine ⟨fun _ => ?_, fun c fn f hmem => ?_⟩
    · simp only [hpt, hc]
    · simp only [hpt, hc, List.not_mem_nil] at hmem
  | some s =>
    refine ⟨fun hb => ?_, fun c fn f hmem => ?_⟩
    · have hbs : jsTrim s = "" := by
        simpa [blankOpt] using hb
      simp only [hpt, hc]
      rw [if_neg]
      rintro ⟨-, ht⟩
      exact ht hbs
    · simp only [hpt, hc] at hmem
      by_cases hcond : s ≠ "" ∧ jsTrim s ≠ ""
      · rw [if_pos hcond] at hmem
        simp only [List.mem_singleton, Prod.mk.injEq] at hmem
        obtain ⟨rfl, -⟩ := hmem
        exact hcond
      · rw [if_neg hcond] at hmem
        simp at hmem

/-- C7 witness: both collaborators answer with nothing and the OCR fallback
returns the empty string, so the final content is blank and no download
happens. -/
theorem c7_witness :
    blankOpt (finalContent ⟨none, none, none, "", true⟩ false "markdown") =
      true ∧
    processTab ⟨none, none, none, "", true⟩ false "markdown" = (false, []) :=
  ⟨by decide,
    (c7_no_empty_persistence ⟨none, none, none, "", true⟩ false "markdown").1
      (by decide)⟩

/-- C8: `fetchAndOCR` yields the empty string — and raises nothing — in
every failure case: an exception around the resource fetch, a raised error
from the retry wrapper, a non-successful OCR HTTP status, and an unparsable
response body. -/
theorem c8_ocr_failures_empty (rOk : Bool) (apiKey : String)
    (ocrFetch : Nat → FetchOutcome) (parse : String → Option OCRData) :
    (rOk = false → fetchAndOCR rOk apiKey ocrFetch parse = "") ∧
    (∀ e, (fetchWithRetry ocrFetch (ocrOptions apiKey) 2 500).result =
        .error e → fetchAndOCR rOk apiKey ocrFetch parse = "") ∧
    (∀ r, (fetchWithRetry ocrFetch (ocrOptions apiKey) 2 500).result =
        .ok r → respOk r.status = false →
      fetchAndOCR rOk apiKey ocrFetch parse = "") ∧
    (∀ r, (fetchWithRetry ocrFetch (ocrOptions apiKey) 2 500).result =
        .ok r → parse r.body = none →
      fetchAndOCR rOk apiKey ocrFetch parse = "") := by
  refine ⟨fun h => by simp [fetchAndOCR, h], fun e he => ?_, fun r hr hs => ?_,
    fun r hr hp => ?_⟩
  · by_cases hok : rOk = false <;> simp [fetchAndOCR, hok, he]
  · by_cases hok : rOk = false <;> simp [fetchAndOCR, hok, hr, hs]
  · by_cases hok : rOk = false
    · simp [fetchAndOCR, hok]
    · by_cases hs2 : respOk r.status = false <;>
        simp [fetchAndOCR, hok, hr, hs2, hp]

/-- C8 witness: the OCR endpoint answers 404, and separately the body fails
to parse on a 200 answer. -/
theorem c8_witness :
    (fetchWithRetry (fun _ => .resp 404 "nf") (ocrOptions "key") 2 500).result =
      .ok ⟨404, "nf"⟩ ∧
    respOk 404 = false ∧
    fetchAndOCR true "key" (fun _ => .resp 404 "nf") (fun _ => some ⟨none, none, none⟩) = "" :=
  ⟨rfl, rfl,
    (c8_ocr_failures_empty true "key" (fun _ => .resp 404 "nf")
      (fun _ => some ⟨none, none, none⟩)).2.2.1 ⟨404, "nf"⟩ rfl rfl⟩

end MistralOCR
